import Mathlib

/-!
Verification development for the Photo_Watermark_2 repository.

The Python source is shallowly embedded: pure fragments become Lean
functions over Nat / Int / Rat (machine arithmetic made explicit), the
file system and the font / image rasterizer are passed in as explicit
total oracles, and Python exceptions become Option / Except results.
Pixel rasters are modelled as size-annotated pixel functions; numpy's
float blend followed by a uint8 cast is modelled by exact rational
arithmetic truncated toward zero (the idealized semantics of the code's
real-number formulas).

Layout: all definitions (the embedding) first, then the supporting
lemmas, then one theorem per claim with its witness or counterexample.
-/

namespace Watermark

/-! ### Definitions -/

/-- Truncate-toward-zero division of d * n by 100: the idealized
semantics of Python's int((d) * f) where f = n / 100 is one of the
anchor fractions.  For nonnegative arguments this is floor division. -/
def pyTruncMulDiv100 (d n : ℤ) : ℤ :=
  if 0 ≤ d * n then Int.ediv (d * n) 100 else -(Int.ediv (-(d * n)) 100)

/-- The nine-entry POSITIONS dict shared by the three manager classes
(watermark_manager.py line 16, text_watermark_manager.py line 18,
image_watermark_manager.py line 16).  A fraction (fx, fy) is stored as
its numerators over 100: top_left is (0.05, 0.05), bottom_right is
(0.95, 0.95), etc. -/
def lookupPOSITIONS (position : String) : Option (ℤ × ℤ) :=
  if position = "top_left" then some (5, 5)
  else if position = "top_center" then some (50, 5)
  else if position = "top_right" then some (95, 5)
  else if position = "center_left" then some (5, 50)
  else if position = "center" then some (50, 50)
  else if position = "center_right" then some (95, 50)
  else if position = "bottom_left" then some (5, 95)
  else if position = "bottom_center" then some (50, 95)
  else if position = "bottom_right" then some (95, 95)
  else none

/-- The names of the nine anchors, i.e. the keys of POSITIONS. -/
def anchorNames : List String :=
  ["top_left", "top_center", "top_right", "center_left", "center",
   "center_right", "bottom_left", "bottom_center", "bottom_right"]

/-- TextWatermarkManager.calculate_position
(text_watermark_manager.py lines 301-331): an unknown name is rebound
to bottom_right, the offset is int((W-w)*fx), int((H-h)*fy), and the
result is clamped into [0, W-w] x [0, H-h] by max 0 (min _ _). -/
def calculate_position (imageSize watermarkSize : ℤ × ℤ)
    (position : String) : ℤ × ℤ :=
  let r := (lookupPOSITIONS position).getD (95, 95)
  let x := pyTruncMulDiv100 (imageSize.1 - watermarkSize.1) r.1
  let y := pyTruncMulDiv100 (imageSize.2 - watermarkSize.2) r.2
  (max 0 (min x (imageSize.1 - watermarkSize.1)),
   max 0 (min y (imageSize.2 - watermarkSize.2)))

/-- WatermarkManager._calculate_position
(watermark_manager.py lines 355-381): same anchor arithmetic but NO
clamping here, and an unknown name falls into the else branch
x = W - w - 10, y = H - h - 10 instead of bottom_right. -/
def wm_calculate_position (imageSize watermarkSize : ℤ × ℤ)
    (position : String) : ℤ × ℤ :=
  match lookupPOSITIONS position with
  | some r =>
      (pyTruncMulDiv100 (imageSize.1 - watermarkSize.1) r.1,
       pyTruncMulDiv100 (imageSize.2 - watermarkSize.2) r.2)
  | none =>
      (imageSize.1 - watermarkSize.1 - 10, imageSize.2 - watermarkSize.2 - 10)

/-- The clamp WatermarkManager.apply_watermark performs on a computed
offset (watermark_manager.py lines 340-341). -/
def applyClamp (imageSize watermarkSize : ℤ × ℤ) (p : ℤ × ℤ) : ℤ × ℤ :=
  (max 0 (min p.1 (imageSize.1 - watermarkSize.1)),
   max 0 (min p.2 (imageSize.2 - watermarkSize.2)))

/-- Modelled from the spec: the placement formula the spec states for an
anchor fraction, round((W-w)*fx), with round-half-up rounding;
round(q/100) = floor((2*q + 100)/200). -/
def specRoundPlacement (imageSize watermarkSize : ℤ × ℤ)
    (fracNum : ℤ × ℤ) : ℤ × ℤ :=
  (Int.ediv (2 * (imageSize.1 - watermarkSize.1) * fracNum.1 + 100) 200,
   Int.ediv (2 * (imageSize.2 - watermarkSize.2) * fracNum.2 + 100) 200)

/-- A numpy image array: rows x cols x channels of uint8 samples,
modelled as a total pixel function (row, col, channel). -/
structure CvImage where
  rows : ℕ
  cols : ℕ
  channels : ℕ
  pix : ℕ → ℕ → ℕ → ℕ

/-- A rectangular region of a host image, by top-left corner and size. -/
structure Region where
  x : ℕ
  y : ℕ
  w : ℕ
  h : ℕ
deriving DecidableEq

/-- The region of the host that overlay_watermark actually writes
(image_watermark_manager.py lines 223-234): out-of-range positions are
clamped to 0 and the watermark is cropped to the remaining extent;
otherwise the stamp rectangle at (x, y) is used as is. -/
def overlayRegion (image wm : CvImage) (pos : ℤ × ℤ) : Region :=
  let x := pos.1
  let y := pos.2
  if x < 0 ∨ y < 0 ∨ x + wm.cols > image.cols ∨ y + wm.rows > image.rows then
    let x2 := max 0 x
    let y2 := max 0 y
    ⟨x2.toNat, y2.toNat,
     min wm.cols ((image.cols : ℤ) - x2).toNat,
     min wm.rows ((image.rows : ℤ) - y2).toNat⟩
  else ⟨x.toNat, y.toNat, wm.cols, wm.rows⟩

/-- The alpha sample used for blending: channel 3 when the watermark is
BGRA, otherwise the constant 255 (np.ones, i.e. alpha-norm 1). -/
def wmAlpha (wm : CvImage) (i j : ℕ) : ℕ :=
  if wm.channels = 4 then wm.pix i j 3 else 255

/-- One channel of the alpha blend
roi = watermark_alpha * watermark_bgr + (1 - watermark_alpha) * roi,
with watermark_alpha = a / 255, followed by the uint8 cast: exact
rational arithmetic truncated toward zero, i.e. floor division. -/
def blendChannel (a s d : ℕ) : ℕ :=
  (a * s + (255 - a) * d) / 255

/-- ImageWatermarkManager.overlay_watermark
(image_watermark_manager.py lines 209-261): blends the watermark into a
copy of the host over the (possibly cropped) region, writing only the
three color channels; everything else keeps the host's samples. -/
def overlay_watermark (image wm : CvImage) (pos : ℤ × ℤ) : CvImage :=
  let r := overlayRegion image wm pos
  { image with
    pix := fun i j c =>
      if r.y ≤ i ∧ i < r.y + r.h ∧ r.x ≤ j ∧ j < r.x + r.w ∧ c < 3 then
        blendChannel (wmAlpha wm (i - r.y) (j - r.x))
          (wm.pix (i - r.y) (j - r.x) c) (image.pix i j c)
      else image.pix i j c }

/-- Modelled from the spec: the real-valued blend formula
stamp_alpha_norm * stamp_color + (1 - stamp_alpha_norm) * dst_color
with stamp_alpha_norm = a / 255, without any quantization. -/
def specBlend (a s d : ℕ) : ℚ :=
  ((a : ℚ) / 255) * s + (1 - (a : ℚ) / 255) * d

/-- ImageWatermarkManager.apply_opacity
(image_watermark_manager.py lines 109-132): multiplies the alpha plane
(channel 3) by opacity / 100 and casts back to uint8 (truncation, i.e.
floor division on nonnegative values); color channels untouched. -/
def apply_opacity (wm : CvImage) (opacity : ℕ) : CvImage :=
  { wm with
    pix := fun i j c =>
      if c = 3 then wm.pix i j 3 * opacity / 100 else wm.pix i j c }

/-- The value of one hex digit, none for a non-hex character
(int(s, 16) raises ValueError). -/
def hexDigitVal (c : Char) : Option ℕ :=
  if '0' ≤ c ∧ c ≤ '9' then some (c.toNat - 48)
  else if 'a' ≤ c ∧ c ≤ 'f' then some (c.toNat - 87)
  else if 'A' ≤ c ∧ c ≤ 'F' then some (c.toNat - 55)
  else none

/-- Python int(s, 16) on a slice of hex digits: none models ValueError
(empty slice or any non-hex character). -/
def pyIntBase16 (l : List Char) : Option ℕ :=
  if l.isEmpty then none
  else l.foldl (fun acc c => acc.bind fun n => (hexDigitVal c).map fun d => 16 * n + d)
    (some 0)

/-- WatermarkManager._hex_to_rgba (watermark_manager.py lines 383-399):
strip leading '#', parse the three 2-character slices, alpha is
int(255 * opacity / 100). -/
def hex_to_rgba (hexColor : String) (opacity : ℕ) : Option (ℕ × ℕ × ℕ × ℕ) := do
  let s := hexColor.data.dropWhile (fun c => c = '#')
  let r ← pyIntBase16 (s.take 2)
  let g ← pyIntBase16 ((s.drop 2).take 2)
  let b ← pyIntBase16 ((s.drop 4).take 2)
  pure (r, g, b, 255 * opacity / 100)

/-- A rendered text stamp; only its canvas size is modelled (the claims
about this builder concern its failure behavior, not glyph rasters). -/
structure TextStamp where
  width : ℕ
  height : ℕ
deriving DecidableEq

/-- The rasterizer facts the builder depends on, as a total oracle:
textbbox measurement under the resolved font, textbbox under
ImageFont.load_default(), and the PIL rotate(expand=True) canvas size. -/
structure FontEnv where
  textSize : String → ℕ → ℕ × ℕ
  defaultTextSize : String → ℕ × ℕ
  rotSize : ℕ → ℕ → ℚ → ℕ × ℕ

/-- WatermarkManager._create_default_watermark
(watermark_manager.py lines 401-433): built-in font, no style effects,
canvas text size + 20 in each dimension — but it re-parses the SAME
color string, so a malformed color raises again (error). -/
def create_default_watermark (env : FontEnv) (text : String) (fontSize : ℕ)
    (color : String) (opacity : ℕ) : Except Unit TextStamp :=
  match hex_to_rgba color opacity with
  | none => Except.error ()
  | some _ =>
      let ts := env.defaultTextSize text
      Except.ok ⟨ts.1 + 20, ts.2 + 20⟩

/-- The body of the try block of create_text_watermark
(watermark_manager.py lines 85-258): measure, compute margins
(base max(size // 20, 8), +outline_width + 3 when shadow or outline,
+10 percent rotation overhang), draw (the outline color parse at line
226 happens before the main color parse at line 233; the shadow color
needs no parse; bold overdraw and the italic shear do not change the
canvas), then rotate with expand.  error () models a raised
ValueError. -/
def render_text_body (env : FontEnv) (text : String) (fontSize : ℕ)
    (color : String) (opacity : ℕ) (rotation : ℚ) (shadow outline : Bool)
    (outlineColor : String) (outlineWidth : ℕ) : Except Unit TextStamp :=
  let ts := env.textSize text fontSize
  let baseMargin := max (fontSize / 20) 8
  let extraMargin := if shadow || outline then outlineWidth + 3 else 0
  let rotMargin := if rotation ≠ 0 then max ts.1 ts.2 / 10 else 0
  let margin := baseMargin + extraMargin + rotMargin
  let imgW := ts.1 + margin * 2
  let imgH := ts.2 + margin * 2
  if outline = true ∧ 0 < outlineWidth ∧ (hex_to_rgba outlineColor opacity).isNone = true then
    Except.error ()
  else
    match hex_to_rgba color opacity with
    | none => Except.error ()
    | some _ =>
        let sz := if rotation ≠ 0 then env.rotSize imgW imgH rotation else (imgW, imgH)
        Except.ok ⟨sz.1, sz.2⟩

/-- WatermarkManager.create_text_watermark
(watermark_manager.py lines 60-263): the try block, with any caught
exception replaced by the _create_default_watermark fallback — which
itself can raise.  font_family, bold and italic select the font
resource and overdraw style, which are absorbed by the oracle. -/
def create_text_watermark (env : FontEnv) (text fontFamily : String)
    (fontSize : ℕ) (color : String) (opacity : ℕ) (rotation : ℚ)
    (shadow outline : Bool) (outlineColor : String) (outlineWidth : ℕ)
    (bold italic : Bool) : Except Unit TextStamp :=
  match render_text_body env text fontSize color opacity rotation shadow outline
      outlineColor outlineWidth with
  | Except.ok s => Except.ok s
  | Except.error _ => create_default_watermark env text fontSize color opacity

/-- A concrete rasterizer oracle for evaluating the builder. -/
def demoFontEnv : FontEnv :=
  ⟨fun _ s => (2 * s, s), fun _ => (30, 11), fun a b _ => (a + b, a + b)⟩

/-- A PIL image: size, mode string, and samples (channel 3 is alpha in
RGBA mode). -/
structure PilImage where
  width : ℕ
  height : ℕ
  mode : String
  pix : ℕ → ℕ → ℕ → ℕ

/-- What the file system holds at a path: no file, a file PIL cannot
decode (Image.open raises), or a decodable image. -/
inductive FileStatus where
  | missing
  | unreadable
  | readable (img : PilImage)

/-- Total oracles for the resampling kernels the claims do not depend
on: LANCZOS resampled samples, rotated samples, and the
rotate(expand=True) canvas size. -/
structure PilEnv where
  resamplePix : PilImage → ℕ × ℕ → (ℕ → ℕ → ℕ → ℕ)
  rotatePix : PilImage → ℚ → (ℕ → ℕ → ℕ → ℕ)
  rotSize : ℕ → ℕ → ℚ → ℕ × ℕ

/-- Python's int() on a rational: truncation toward zero. -/
def pyIntRat (q : ℚ) : ℤ :=
  if 0 ≤ q then ⌊q⌋ else -⌊-q⌋

/-- watermark.convert('RGBA') when the mode is not already RGBA
(watermark_manager.py lines 287-288): synthesizes a fully opaque alpha
channel (255). -/
def convert_rgba (img : PilImage) : PilImage :=
  if img.mode = "RGBA" then img
  else
    { img with
      mode := "RGBA",
      pix := fun i j c => if c = 3 then 255 else img.pix i j c }

/-- alpha.point(lambda p: int(p * opacity / 100)); putalpha
(watermark_manager.py lines 292-294). -/
def pil_apply_opacity (img : PilImage) (opacity : ℕ) : PilImage :=
  { img with
    pix := fun i j c => if c = 3 then img.pix i j 3 * opacity / 100 else img.pix i j c }

/-- watermark.resize((int(w * scale), int(h * scale)), LANCZOS)
(watermark_manager.py lines 297-299); sample values via the oracle. -/
def pil_resize (env : PilEnv) (img : PilImage) (scale : ℚ) : PilImage :=
  { width := (pyIntRat (img.width * scale)).toNat,
    height := (pyIntRat (img.height * scale)).toNat,
    mode := img.mode,
    pix := env.resamplePix img
      ((pyIntRat (img.width * scale)).toNat, (pyIntRat (img.height * scale)).toNat) }

/-- watermark.rotate(rotation, expand=True, fillcolor=(0,0,0,0))
(watermark_manager.py lines 302-303); geometry via the oracle. -/
def pil_rotate (env : PilEnv) (img : PilImage) (rotation : ℚ) : PilImage :=
  { width := (env.rotSize img.width img.height rotation).1,
    height := (env.rotSize img.width img.height rotation).2,
    mode := img.mode,
    pix := env.rotatePix img rotation }

/-- WatermarkManager.create_image_watermark
(watermark_manager.py lines 265-309): missing path returns None before
opening; an unreadable file raises inside the try and the except
returns None; otherwise convert to RGBA, multiply alpha when
opacity < 100, resize when scale is not 1, rotate when rotation is not
0, and return the stamp. -/
def create_image_watermark (fs : String → FileStatus) (env : PilEnv)
    (imagePath : String) (scale : ℚ) (opacity : ℕ) (rotation : ℚ) :
    Option PilImage :=
  match fs imagePath with
  | FileStatus.missing => none
  | FileStatus.unreadable => none
  | FileStatus.readable img =>
      let w1 := convert_rgba img
      let w2 := if opacity < 100 then pil_apply_opacity w1 opacity else w1
      let w3 := if scale ≠ 1 then pil_resize env w2 scale else w2
      let w4 := if rotation ≠ 0 then pil_rotate env w3 rotation else w3
      some w4

/-- A concrete RGB (no alpha) source image. -/
def demoRgbSource : PilImage := ⟨4, 4, "RGB", fun _ _ _ => 9⟩

/-- A concrete file system with one readable image. -/
def demoFs : String → FileStatus :=
  fun p => if p = "logo.png" then FileStatus.readable demoRgbSource
           else FileStatus.missing

/-- A concrete resampling oracle. -/
def demoPilEnv : PilEnv :=
  ⟨fun img _ => img.pix, fun img _ => img.pix, fun a b _ => (a + b, a + b)⟩

/-- Split a file name into (stem, suffix) following pathlib: find the
last dot; when there is none, or it is the leading or trailing
character, the suffix is empty. -/
def splitName (cs : List Char) : List Char × List Char :=
  let rev := cs.reverse
  let tl := rev.takeWhile (fun c => c != '.')
  match rev.dropWhile (fun c => c != '.') with
  | [] => (cs, [])
  | _ :: stemRev =>
      if stemRev = [] ∨ tl = [] then (cs, [])
      else (stemRev.reverse, '.' :: tl.reverse)

/-- Path(s).stem on a bare file name. -/
def fileStem (s : String) : String := ⟨(splitName s.data).1⟩

/-- Path(s).suffix on a bare file name. -/
def fileSuffix (s : String) : String := ⟨(splitName s.data).2⟩

/-- str.lower(), ASCII portion (the only portion format extensions
use). -/
def lowerL (l : List Char) : List Char := l.map Char.toLower

/-- str.endswith on char lists. -/
def endsWithL (pat l : List Char) : Bool := pat.isSuffixOf l

/-- The extension-forcing step shared by ImageProcessor.batch_export
(image_processor.py lines 298-302) and WatermarkApp.batch_export
(main.py lines 1438-1442): JPEG output forces a .jpg extension unless
the lowered name already ends in .jpg or .jpeg; PNG output forces .png
unless it already ends in .png.  (JPEG and PNG are the only output
formats the application offers, main.py lines 603-606.) -/
def force_extension (fmt : String) (nameL : List Char) : List Char :=
  if fmt = "JPEG" ∧
      ¬(endsWithL ".jpg".data (lowerL nameL) = true ∨
        endsWithL ".jpeg".data (lowerL nameL) = true) then
    (splitName nameL).1 ++ ".jpg".data
  else if fmt = "PNG" ∧ ¬(endsWithL ".png".data (lowerL nameL) = true) then
    (splitName nameL).1 ++ ".png".data
  else nameL

/-- The full output-name computation of the batch exporters
(image_processor.py lines 287-302, main.py lines 1426-1442): naming
rule original / prefix / suffix applied to the source's stem and
suffix, then the extension forced to the output format. -/
def make_output_name (rule pre suf src fmt : String) : String :=
  ⟨force_extension fmt
    (if rule = "prefix" then
       pre.data ++ (splitName src.data).1 ++ (splitName src.data).2
     else if rule = "suffix" then
       (splitName src.data).1 ++ suf.data ++ (splitName src.data).2
     else (splitName src.data).1 ++ (splitName src.data).2)⟩

/-- Modelled from the spec: the output extension agrees with the chosen
output format (either JPEG extension for JPEG, the PNG extension for
PNG), up to letter case. -/
def extension_matches (fmt : String) (e : List Char) : Prop :=
  (fmt = "JPEG" → lowerL e = ".jpg".data ∨ lowerL e = ".jpeg".data) ∧
  (fmt = "PNG" → lowerL e = ".png".data)

/-- One entry of self.images as the batch loop uses it. -/
structure ImgEntry where
  file_path : String
  filename : String
deriving DecidableEq

/-- The result dict of batch_export. -/
structure ExportResults where
  success_count : ℕ
  failed_count : ℕ
  failed_files : List String
deriving DecidableEq

/-- One iteration of the batch loop (image_processor.py lines 285-316):
the oracle reports whether this image was exported (False covers both
save_image returning False and an exception caught by the per-image
except block; both record the same failure). -/
def batch_export_step (save : ImgEntry → Bool) (acc : ExportResults)
    (entry : ImgEntry) : ExportResults :=
  if save entry then
    { acc with success_count := acc.success_count + 1 }
  else
    { acc with
      failed_count := acc.failed_count + 1,
      failed_files := acc.failed_files ++ [entry.filename] }

/-- ImageProcessor.batch_export (image_processor.py lines 259-318):
fold of the per-image step over the whole list — the loop body is
wrapped in try/except, so no single image can abort the rest. -/
def batch_export (images : List ImgEntry) (save : ImgEntry → Bool) :
    ExportResults :=
  images.foldl (batch_export_step save) ⟨0, 0, []⟩

/-- PIL's Image.thumbnail: documented to resize IN PLACE and return
None; the Python expression img.thumbnail(size, resample) therefore
always evaluates to None (the mutation happens on the receiver, which
create_thumbnail immediately discards). -/
def pil_thumbnail_expr (img : PilImage) (size : ℕ × ℕ) : Option PilImage :=
  none

/-- image.copy(). -/
def pil_copy (img : PilImage) : PilImage := img

/-- ImageProcessor.create_thumbnail (image_processor.py lines 125-136):
return image.copy().thumbnail(size, LANCZOS) — the value RETURNED is
the thumbnail method's return value. -/
def create_thumbnail (image : PilImage) (size : ℕ × ℕ) : Option PilImage :=
  pil_thumbnail_expr (pil_copy image) size

/-- Path(p).name: the component after the last slash. -/
def pathName (p : String) : String :=
  ⟨((p.data.reverse.takeWhile (fun c => c != '/')).reverse)⟩

/-- The supported extensions of ImageProcessor.SUPPORTED_FORMATS
(image_processor.py lines 18-23). -/
def supported_extensions : List String :=
  [".jpg", ".jpeg", ".png", ".bmp", ".tiff", ".tif"]

/-- ImageProcessor.is_supported_image (image_processor.py lines 37-48):
lowercased extension membership. -/
def is_supported_image (filePath : String) : Bool :=
  supported_extensions.contains ⟨lowerL (fileSuffix (pathName filePath)).data⟩

/-- One entry of self.images as built by add_image (the format string
is irrelevant to the claims and omitted). -/
structure ImageInfo where
  file_path : String
  filename : String
  image : PilImage
  thumbnail : Option PilImage
  original_size : ℕ × ℕ

/-- ImageProcessor.add_image (image_processor.py lines 70-100): check
the extension, load (the oracle returns none when load_image fails),
build the thumbnail with create_thumbnail, and append the entry; the
returned Option is the appended entry (none when add_image returns
False and appends nothing). -/
def add_image (loader : String → Option PilImage) (filePath : String) :
    Option ImageInfo :=
  if is_supported_image filePath = false then none
  else
    match loader filePath with
    | none => none
    | some image =>
        some { file_path := filePath,
               filename := pathName filePath,
               image := image,
               thumbnail := create_thumbnail image (150, 150),
               original_size := (image.width, image.height) }

/-- A loader always producing the demo source image. -/
def demoLoader : String → Option PilImage := fun _ => some demoRgbSource

/-- The entry add_image builds for a.png under demoLoader. -/
def demoEntry : ImageInfo :=
  { file_path := "a.png",
    filename := "a.png",
    image := demoRgbSource,
    thumbnail := none,
    original_size := (4, 4) }

/-! ### Supporting lemmas -/

/-- For an anchor numerator k with 0 <= k <= 100: on a nonnegative
margin d the truncated product lies in [0, d] (so the clamp is the
identity there), and on a negative margin the clamp forces 0. -/
lemma clamp_trunc_spec (d k : ℤ) (hk0 : 0 ≤ k) (hk : k ≤ 100) :
    (0 ≤ d →
      max 0 (min (pyTruncMulDiv100 d k) d) = Int.ediv (d * k) 100 ∧
      0 ≤ Int.ediv (d * k) 100 ∧ Int.ediv (d * k) 100 ≤ d) ∧
    (d < 0 → max 0 (min (pyTruncMulDiv100 d k) d) = 0) := by
  constructor
  · intro hd
    have hdk : 0 ≤ d * k := mul_nonneg hd hk0
    have htr : pyTruncMulDiv100 d k = Int.ediv (d * k) 100 := by
      simp [pyTruncMulDiv100, hdk]
    have h0 : 0 ≤ Int.ediv (d * k) 100 := Int.ediv_nonneg hdk (by norm_num)
    have hle : Int.ediv (d * k) 100 ≤ d := by
      have h1 : d * k ≤ d * 100 := mul_le_mul_of_nonneg_left hk hd
      have h2 : Int.ediv (d * k) 100 ≤ Int.ediv (d * 100) 100 :=
        Int.ediv_le_ediv (by norm_num) h1
      have h3 : Int.ediv (d * 100) 100 = d := Int.mul_ediv_cancel d (by norm_num)
      omega
    rw [htr]
    refine ⟨?_, h0, hle⟩
    rw [min_eq_left hle, max_eq_right h0]
  · intro hd
    have h1 : min (pyTruncMulDiv100 d k) d ≤ d := min_le_right _ _
    omega

/-- takeWhile over an append whose left part satisfies the predicate. -/
lemma takeWhile_append_all (p : Char → Bool) (l1 l2 : List Char)
    (hall : ∀ x ∈ l1, p x = true) :
    (l1 ++ l2).takeWhile p = l1 ++ l2.takeWhile p := by
  induction l1 with
  | nil => simp
  | cons a t ih =>
      have ha : p a = true := hall a (by simp)
      simp only [List.cons_append, List.takeWhile_cons, ha, if_pos]
      rw [ih (fun x hx => hall x (by simp [hx]))]

/-- dropWhile over an append whose left part satisfies the predicate. -/
lemma dropWhile_append_all (p : Char → Bool) (l1 l2 : List Char)
    (hall : ∀ x ∈ l1, p x = true) :
    (l1 ++ l2).dropWhile p = l2.dropWhile p := by
  induction l1 with
  | nil => simp
  | cons a t ih =>
      have ha : p a = true := hall a (by simp)
      simp only [List.cons_append, List.dropWhile_cons, ha, if_pos]
      exact ih (fun x hx => hall x (by simp [hx]))

/-- splitName on a name of the shape stem ++ '.' :: rest with nonempty
stem and nonempty dot-free rest recovers exactly that decomposition. -/
lemma splitName_append (stemL extR : List Char) (hstem : stemL ≠ [])
    (hext : extR ≠ []) (hdot : '.' ∉ extR) :
    splitName (stemL ++ '.' :: extR) = (stemL, '.' :: extR) := by
  have hall : ∀ x ∈ extR.reverse, (x != '.') = true := by
    intro x hx
    rw [bne_iff_ne]
    intro he
    exact hdot (by rw [← he]; exact List.mem_reverse.mp hx)
  have hrev : (stemL ++ '.' :: extR).reverse = extR.reverse ++ '.' :: stemL.reverse := by
    simp [List.reverse_append]
  rw [splitName]
  simp only [hrev]
  rw [takeWhile_append_all _ _ _ hall, dropWhile_append_all _ _ _ hall]
  have hdd : (('.' : Char) != '.') = false := by decide
  simp only [List.takeWhile_cons, List.dropWhile_cons, hdd, Bool.false_eq_true, if_false,
    List.append_nil]
  have hcond : ¬(stemL.reverse = [] ∨ extR.reverse = []) := by
    rintro (h | h)
    · exact hstem (by simpa using h)
    · exact hext (by simpa using h)
  rw [if_neg hcond]
  simp

/-- A Char whose lowercase form is the dot is the dot itself. -/
lemma char_ofNat_toNat_ascii (n : ℕ) (h1 : 97 ≤ n) (h2 : n ≤ 122) :
    (Char.ofNat n).toNat = n := by
  have hv : n.isValidChar := Or.inl (by omega)
  rw [Char.ofNat, dif_pos hv]
  rfl

/-- Char.toLower maps no character other than '.' to '.'. -/
lemma toLower_eq_dot {c : Char} (h : c.toLower = '.') : c = '.' := by
  simp only [Char.toLower] at h
  by_cases hc : c.toNat ≥ 65 ∧ c.toNat ≤ 90
  · exfalso
    rw [if_pos hc] at h
    have h2 := congrArg Char.toNat h
    rw [char_ofNat_toNat_ascii _ (by omega) (by omega)] at h2
    have hdn : ('.' : Char).toNat = 46 := by decide
    omega
  · rw [if_neg hc] at h
    exact h

/-- Lowercasing preserves dot-freeness. -/
lemma lowerL_dot_free {r : List Char} (h : '.' ∉ r) : '.' ∉ lowerL r := by
  intro hmem
  rw [lowerL, List.mem_map] at hmem
  obtain ⟨c, hc, hcl⟩ := hmem
  exact h (toLower_eq_dot hcl ▸ hc)

/-- Lowercasing distributes over the stem-dot-extension shape. -/
lemma lowerL_shape (b r : List Char) :
    lowerL (b ++ '.' :: r) = lowerL b ++ '.' :: lowerL r := by
  have hdot : Char.toLower '.' = '.' := by decide
  simp [lowerL, hdot]

/-- A pattern of the shape '.' :: q is a suffix of b ++ '.' :: r with q
and r dot-free exactly when q = r: the dots must align. -/
lemma dot_suffix_iff (b r q : List Char) (hr : '.' ∉ r) (hq : '.' ∉ q) :
    (('.' :: q).isSuffixOf (b ++ '.' :: r) = true) ↔ q = r := by
  rw [List.isSuffixOf_iff_suffix]
  constructor
  · intro hs
    obtain ⟨t, ht⟩ := hs
    have hrevEq : q.reverse ++ '.' :: t.reverse = r.reverse ++ '.' :: b.reverse := by
      have h0 := congrArg List.reverse ht
      simpa [List.reverse_append] using h0
    have hallq : ∀ x ∈ q.reverse, (x != '.') = true := by
      intro x hx
      rw [bne_iff_ne]
      intro he
      exact hq (by rw [← he]; exact List.mem_reverse.mp hx)
    have hallr : ∀ x ∈ r.reverse, (x != '.') = true := by
      intro x hx
      rw [bne_iff_ne]
      intro he
      exact hr (by rw [← he]; exact List.mem_reverse.mp hx)
    have hdd : (('.' : Char) != '.') = false := by decide
    have h1 : (q.reverse ++ '.' :: t.reverse).takeWhile (fun c => c != '.') = q.reverse := by
      rw [takeWhile_append_all _ _ _ hallq]
      simp [List.takeWhile_cons, hdd]
    have h2 : (r.reverse ++ '.' :: b.reverse).takeWhile (fun c => c != '.') = r.reverse := by
      rw [takeWhile_append_all _ _ _ hallr]
      simp [List.takeWhile_cons, hdd]
    rw [hrevEq, h2] at h1
    exact List.reverse_injective h1.symm
  · intro he
    subst he
    exact ⟨b, rfl⟩

/-- Behavior of the extension-forcing step on a name of the shape
base ++ '.' :: rest: the base is preserved and the resulting extension
matches the chosen format. -/
lemma force_extension_spec (base extR : List Char)
    (hbase : base ≠ []) (hext : extR ≠ []) (hdot : '.' ∉ extR)
    (fmt : String) (hfmt : fmt = "JPEG" ∨ fmt = "PNG") :
    ∃ e : List Char, force_extension fmt (base ++ '.' :: extR) = base ++ e ∧
      extension_matches fmt e := by
  have hlow : lowerL (base ++ '.' :: extR) = lowerL base ++ '.' :: lowerL extR :=
    lowerL_shape base extR
  have hrl : '.' ∉ lowerL extR := lowerL_dot_free hdot
  rcases hfmt with rfl | rfl
  · rw [force_extension]
    by_cases hend : endsWithL ".jpg".data (lowerL (base ++ '.' :: extR)) = true ∨
        endsWithL ".jpeg".data (lowerL (base ++ '.' :: extR)) = true
    · rw [if_neg (fun hco => hco.2 hend), if_neg (fun hco => absurd hco.1 (by decide))]
      refine ⟨'.' :: extR, rfl, ?_, fun hpn => absurd hpn (by decide)⟩
      intro _
      rcases hend with he | he
      · left
        rw [endsWithL, hlow] at he
        have hq : ('.' : Char) ∉ ['j', 'p', 'g'] := by decide
        have hjpg : (".jpg".data : List Char) = '.' :: ['j', 'p', 'g'] := by decide
        rw [hjpg] at he
        have := (dot_suffix_iff (lowerL base) (lowerL extR) ['j', 'p', 'g'] hrl hq).mp he
        have hcons : lowerL ('.' :: extR) = '.' :: lowerL extR := by
          simp [lowerL, show Char.toLower '.' = '.' from by decide]
        rw [hcons, ← this]
      · right
        rw [endsWithL, hlow] at he
        have hq : ('.' : Char) ∉ ['j', 'p', 'e', 'g'] := by decide
        have hjpeg : (".jpeg".data : List Char) = '.' :: ['j', 'p', 'e', 'g'] := by decide
        rw [hjpeg] at he
        have := (dot_suffix_iff (lowerL base) (lowerL extR) ['j', 'p', 'e', 'g'] hrl hq).mp he
        have hcons : lowerL ('.' :: extR) = '.' :: lowerL extR := by
          simp [lowerL, show Char.toLower '.' = '.' from by decide]
        rw [hcons, ← this]
    · rw [if_pos ⟨rfl, hend⟩, splitName_append base extR hbase hext hdot]
      exact ⟨".jpg".data, rfl, fun _ => Or.inl (by decide),
        fun hpn => absurd hpn (by decide)⟩
  · rw [force_extension]
    rw [if_neg (fun hco => absurd hco.1 (by decide))]
    by_cases hend : endsWithL ".png".data (lowerL (base ++ '.' :: extR)) = true
    · rw [if_neg (fun hco => hco.2 hend)]
      refine ⟨'.' :: extR, rfl, fun hj => absurd hj (by decide), ?_⟩
      intro _
      rw [endsWithL, hlow] at hend
      have hq : ('.' : Char) ∉ ['p', 'n', 'g'] := by decide
      have hpng : (".png".data : List Char) = '.' :: ['p', 'n', 'g'] := by decide
      rw [hpng] at hend
      have := (dot_suffix_iff (lowerL base) (lowerL extR) ['p', 'n', 'g'] hrl hq).mp hend
      have hcons : lowerL ('.' :: extR) = '.' :: lowerL extR := by
        simp [lowerL, show Char.toLower '.' = '.' from by decide]
      rw [hcons, ← this]
    · rw [if_pos ⟨rfl, hend⟩, splitName_append base extR hbase hext hdot]
      exact ⟨".png".data, rfl, fun hj => absurd hj (by decide),
        fun _ => by decide⟩

/-- Accumulator-generalized success count of the batch fold. -/
lemma batch_export_foldl_success (save : ImgEntry → Bool) (images : List ImgEntry)
    (acc : ExportResults) :
    (images.foldl (batch_export_step save) acc).success_count =
      acc.success_count + (images.filter (fun e => save e)).length := by
  induction images generalizing acc with
  | nil => simp
  | cons a t ih =>
      simp only [List.foldl_cons]
      rw [ih]
      by_cases hs : save a = true
      · simp [batch_export_step, hs, List.filter_cons]
        omega
      · simp [batch_export_step, hs, List.filter_cons]

/-- Accumulator-generalized failure count of the batch fold. -/
lemma batch_export_foldl_failed (save : ImgEntry → Bool) (images : List ImgEntry)
    (acc : ExportResults) :
    (images.foldl (batch_export_step save) acc).failed_count =
      acc.failed_count + (images.filter (fun e => !(save e))).length := by
  induction images generalizing acc with
  | nil => simp
  | cons a t ih =>
      simp only [List.foldl_cons]
      rw [ih]
      by_cases hs : save a = true
      · simp [batch_export_step, hs, List.filter_cons]
      · simp [batch_export_step, hs, List.filter_cons]
        omega

/-- Accumulator-generalized failed-file list of the batch fold. -/
lemma batch_export_foldl_files (save : ImgEntry → Bool) (images : List ImgEntry)
    (acc : ExportResults) :
    (images.foldl (batch_export_step save) acc).failed_files =
      acc.failed_files ++ (images.filter (fun e => !(save e))).map ImgEntry.filename := by
  induction images generalizing acc with
  | nil => simp
  | cons a t ih =>
      simp only [List.foldl_cons]
      rw [ih]
      by_cases hs : save a = true
      · simp [batch_export_step, hs, List.filter_cons]
      · simp [batch_export_step, hs, List.filter_cons]

/-! ### Claim theorems -/

/-- C1 (amended). Position Resolver postcondition, as the code computes
it: for each of the nine named anchors with fraction numerators
(kx, ky) over 100, when the stamp is strictly smaller than the host in
both dimensions the resolved offset equals the TRUNCATED products
(int((W-w)*fx), int((H-h)*fy)) — floor, not round-half-up — and lies in
[0, W-w] x [0, H-h]; when the stamp is larger in a dimension the offset
in that dimension is 0; and WatermarkManager's unclamped variant
followed by apply_watermark's clamp agrees with the clamped resolver. -/
theorem c1_anchor_placement (position : String) (hpos : position ∈ anchorNames)
    (W H w h : ℤ) :
    (w < W → h < H →
      calculate_position (W, H) (w, h) position =
        (Int.ediv ((W - w) * ((lookupPOSITIONS position).getD (95, 95)).1) 100,
         Int.ediv ((H - h) * ((lookupPOSITIONS position).getD (95, 95)).2) 100) ∧
      0 ≤ (calculate_position (W, H) (w, h) position).1 ∧
      (calculate_position (W, H) (w, h) position).1 ≤ W - w ∧
      0 ≤ (calculate_position (W, H) (w, h) position).2 ∧
      (calculate_position (W, H) (w, h) position).2 ≤ H - h) ∧
    (W < w → (calculate_position (W, H) (w, h) position).1 = 0) ∧
    (H < h → (calculate_position (W, H) (w, h) position).2 = 0) ∧
    applyClamp (W, H) (w, h) (wm_calculate_position (W, H) (w, h) position) =
      calculate_position (W, H) (w, h) position := by
  have main : ∀ kx ky : ℤ, 0 ≤ kx → kx ≤ 100 → 0 ≤ ky → ky ≤ 100 →
      lookupPOSITIONS position = some (kx, ky) →
      (w < W → h < H →
        calculate_position (W, H) (w, h) position =
          (Int.ediv ((W - w) * ((lookupPOSITIONS position).getD (95, 95)).1) 100,
           Int.ediv ((H - h) * ((lookupPOSITIONS position).getD (95, 95)).2) 100) ∧
        0 ≤ (calculate_position (W, H) (w, h) position).1 ∧
        (calculate_position (W, H) (w, h) position).1 ≤ W - w ∧
        0 ≤ (calculate_position (W, H) (w, h) position).2 ∧
        (calculate_position (W, H) (w, h) position).2 ≤ H - h) ∧
      (W < w → (calculate_position (W, H) (w, h) position).1 = 0) ∧
      (H < h → (calculate_position (W, H) (w, h) position).2 = 0) ∧
      applyClamp (W, H) (w, h) (wm_calculate_position (W, H) (w, h) position) =
        calculate_position (W, H) (w, h) position := by
    intro kx ky hkx0 hkx hky0 hky hlook
    have hx := clamp_trunc_spec (W - w) kx hkx0 hkx
    have hy := clamp_trunc_spec (H - h) ky hky0 hky
    simp only [calculate_position, wm_calculate_position, applyClamp, hlook,
      Option.getD_some]
    refine ⟨?_, ?_, ?_, by trivial⟩
    · intro hW hH
      have hdx : (0 : ℤ) ≤ W - w := by omega
      have hdy : (0 : ℤ) ≤ H - h := by omega
      obtain ⟨ex, x0, xle⟩ := hx.1 hdx
      obtain ⟨ey, y0, yle⟩ := hy.1 hdy
      simp only [ex, ey]
      exact ⟨by trivial, x0, xle, y0, yle⟩
    · intro hW
      exact hx.2 (by omega)
    · intro hH
      exact hy.2 (by omega)
  simp only [anchorNames, List.mem_cons, List.not_mem_nil, or_false] at hpos
  rcases hpos with rfl | rfl | rfl | rfl | rfl | rfl | rfl | rfl | rfl
  · exact main 5 5 (by norm_num) (by norm_num) (by norm_num) (by norm_num) rfl
  · exact main 50 5 (by norm_num) (by norm_num) (by norm_num) (by norm_num) rfl
  · exact main 95 5 (by norm_num) (by norm_num) (by norm_num) (by norm_num) rfl
  · exact main 5 50 (by norm_num) (by norm_num) (by norm_num) (by norm_num) rfl
  · exact main 50 50 (by norm_num) (by norm_num) (by norm_num) (by norm_num) rfl
  · exact main 95 50 (by norm_num) (by norm_num) (by norm_num) (by norm_num) rfl
  · exact main 5 95 (by norm_num) (by norm_num) (by norm_num) (by norm_num) rfl
  · exact main 50 95 (by norm_num) (by norm_num) (by norm_num) (by norm_num) rfl
  · exact main 95 95 (by norm_num) (by norm_num) (by norm_num) (by norm_num) rfl

/-- C1 witness: host 100x100, stamp 10x10, anchor bottom_right. -/
theorem c1_anchor_placement_witness :
    calculate_position (100, 100) (10, 10) "bottom_right" =
      (Int.ediv ((100 - 10) * ((lookupPOSITIONS "bottom_right").getD (95, 95)).1) 100,
       Int.ediv ((100 - 10) * ((lookupPOSITIONS "bottom_right").getD (95, 95)).2) 100) ∧
    0 ≤ (calculate_position (100, 100) (10, 10) "bottom_right").1 ∧
    (calculate_position (100, 100) (10, 10) "bottom_right").1 ≤ 100 - 10 ∧
    0 ≤ (calculate_position (100, 100) (10, 10) "bottom_right").2 ∧
    (calculate_position (100, 100) (10, 10) "bottom_right").2 ≤ 100 - 10 :=
  (c1_anchor_placement "bottom_right" (by decide) 100 100 10 10).1
    (by decide) (by decide)

/-- C1 counterexample: at host 100x100, stamp 10x10, bottom_right the
code truncates (W-w)*0.95 = 85.5 to 85, while the claim's
round((W-w)*0.95) is 86. -/
theorem c1_counterexample :
    calculate_position (100, 100) (10, 10) "bottom_right" = (85, 85) ∧
    specRoundPlacement (100, 100) (10, 10) (95, 95) = (86, 86) ∧
    calculate_position (100, 100) (10, 10) "bottom_right" ≠
      specRoundPlacement (100, 100) (10, 10) (95, 95) := by
  refine ⟨by decide, by decide, by decide⟩

/-- C7 (amended). A position name outside the nine anchors resolves,
in TextWatermarkManager.calculate_position, to the same offset as
bottom_right; but WatermarkManager._calculate_position instead returns
the fixed 10-pixel inset (W - w - 10, H - h - 10). -/
theorem c7_unknown_anchor_default (imageSize watermarkSize : ℤ × ℤ)
    (position : String) (hpos : lookupPOSITIONS position = none) :
    calculate_position imageSize watermarkSize position =
      calculate_position imageSize watermarkSize "bottom_right" ∧
    wm_calculate_position imageSize watermarkSize position =
      (imageSize.1 - watermarkSize.1 - 10, imageSize.2 - watermarkSize.2 - 10) := by
  constructor
  · have hbr : lookupPOSITIONS "bottom_right" = some (95, 95) := by decide
    simp [calculate_position, hpos, hbr]
  · simp [wm_calculate_position, hpos]

/-- C7 witness: the unknown name "middle" on a 100x100 host with a
10x10 stamp. -/
theorem c7_unknown_anchor_default_witness :
    calculate_position (100, 100) (10, 10) "middle" =
      calculate_position (100, 100) (10, 10) "bottom_right" ∧
    wm_calculate_position (100, 100) (10, 10) "middle" =
      ((100 : ℤ) - 10 - 10, (100 : ℤ) - 10 - 10) :=
  c7_unknown_anchor_default (100, 100) (10, 10) "middle" (by decide)

/-- C7 counterexample: for the unknown name "middle",
WatermarkManager._calculate_position gives (80, 80), not the
bottom_right placement (85, 85). -/
theorem c7_counterexample :
    wm_calculate_position (100, 100) (10, 10) "middle" = (80, 80) ∧
    wm_calculate_position (100, 100) (10, 10) "bottom_right" = (85, 85) ∧
    wm_calculate_position (100, 100) (10, 10) "middle" ≠
      wm_calculate_position (100, 100) (10, 10) "bottom_right" := by
  refine ⟨by decide, by decide, by decide⟩

/-- C2 (amended). Compositor blend rule as the code computes it: for a
BGRA stamp placed fully inside the host, every output color channel
under the footprint equals the alpha blend
(a * s + (255 - a) * d) / 255 truncated to an integer (the uint8 cast);
the truncation is exact at the extremes: alpha 255 yields the stamp
color unchanged and alpha 0 leaves the host sample unchanged. -/
theorem c2_blend (image wm : CvImage) (x y : ℤ) (i j c : ℕ)
    (hch : wm.channels = 4)
    (hx0 : 0 ≤ x) (hy0 : 0 ≤ y)
    (hxw : x + wm.cols ≤ image.cols) (hyh : y + wm.rows ≤ image.rows)
    (hi : i < wm.rows) (hj : j < wm.cols)
    (_ha : wm.pix i j 3 ≤ 255) (hc : c < 3) :
    (overlay_watermark image wm (x, y)).pix (y.toNat + i) (x.toNat + j) c =
      (wm.pix i j 3 * wm.pix i j c +
        (255 - wm.pix i j 3) * image.pix (y.toNat + i) (x.toNat + j) c) / 255 ∧
    (wm.pix i j 3 = 255 →
      (overlay_watermark image wm (x, y)).pix (y.toNat + i) (x.toNat + j) c =
        wm.pix i j c) ∧
    (wm.pix i j 3 = 0 →
      (overlay_watermark image wm (x, y)).pix (y.toNat + i) (x.toNat + j) c =
        image.pix (y.toNat + i) (x.toNat + j) c) := by
  have hreg : overlayRegion image wm (x, y) = ⟨x.toNat, y.toNat, wm.cols, wm.rows⟩ := by
    rw [overlayRegion]
    rw [if_neg]
    push_neg
    refine ⟨hx0, hy0, ?_, ?_⟩ <;> omega
  have hin : (y.toNat ≤ y.toNat + i ∧ y.toNat + i < y.toNat + wm.rows ∧
      x.toNat ≤ x.toNat + j ∧ x.toNat + j < x.toNat + wm.cols ∧ c < 3) := by
    refine ⟨Nat.le_add_right _ _, by omega, Nat.le_add_right _ _, by omega, hc⟩
  have hpix : (overlay_watermark image wm (x, y)).pix (y.toNat + i) (x.toNat + j) c =
      blendChannel (wm.pix i j 3) (wm.pix i j c)
        (image.pix (y.toNat + i) (x.toNat + j) c) := by
    rw [overlay_watermark]
    simp only [hreg, if_pos hin]
    rw [wmAlpha, if_pos hch]
    congr 2 <;> omega
  refine ⟨hpix, ?_, ?_⟩
  · intro h255
    rw [hpix, blendChannel, h255]
    simp [Nat.mul_div_cancel_left]
  · intro h0
    rw [hpix, blendChannel, h0]
    simp [Nat.mul_div_cancel_left]

/-- C2 witness: a fully-inside 1x1 BGRA stamp, alpha 128, on a 2x2 host. -/
theorem c2_blend_witness :
    (overlay_watermark ⟨2, 2, 3, fun _ _ _ => 7⟩
        ⟨1, 1, 4, fun _ _ c => if c = 3 then 128 else 100⟩ (1, 1)).pix 1 1 0 =
      (128 * 100 + (255 - 128) * 7) / 255 :=
  (c2_blend ⟨2, 2, 3, fun _ _ _ => 7⟩
      ⟨1, 1, 4, fun _ _ c => if c = 3 then 128 else 100⟩ 1 1 0 0 0
      rfl (by decide) (by decide) (by decide) (by decide) (by decide) (by decide)
      (by decide) (by decide)).1

/-- C2 counterexample: alpha 128, stamp color 100 over destination 0
produces the truncated value 50, while the claim's real-valued formula
gives 2560/51 = 50.196...; the code's output is not equal to it. -/
theorem c2_counterexample :
    (overlay_watermark ⟨1, 1, 3, fun _ _ _ => 0⟩
        ⟨1, 1, 4, fun _ _ c => if c = 3 then 128 else 100⟩ (0, 0)).pix 0 0 0 = 50 ∧
    ((overlay_watermark ⟨1, 1, 3, fun _ _ _ => 0⟩
        ⟨1, 1, 4, fun _ _ c => if c = 3 then 128 else 100⟩ (0, 0)).pix 0 0 0 : ℚ) ≠
      specBlend 128 100 0 := by
  constructor
  · decide
  · have h : (overlay_watermark ⟨1, 1, 3, fun _ _ _ => 0⟩
        ⟨1, 1, 4, fun _ _ c => if c = 3 then 128 else 100⟩ (0, 0)).pix 0 0 0 = 50 := by
      decide
    rw [h, specBlend]
    norm_num

/-- C3 (confirmed). Compositor frame condition: overlay_watermark
returns a copy with the host's dimensions and channel count (the host
value itself is untouched — the embedding is pure and the code blends
into image.copy()), and every sample outside the written region —
including every alpha sample, since only channels 0..2 are written —
equals the host's original sample. -/
theorem c3_frame (image wm : CvImage) (pos : ℤ × ℤ) :
    (overlay_watermark image wm pos).rows = image.rows ∧
    (overlay_watermark image wm pos).cols = image.cols ∧
    (overlay_watermark image wm pos).channels = image.channels ∧
    ∀ i j c,
      (j < (overlayRegion image wm pos).x ∨
       (overlayRegion image wm pos).x + (overlayRegion image wm pos).w ≤ j ∨
       i < (overlayRegion image wm pos).y ∨
       (overlayRegion image wm pos).y + (overlayRegion image wm pos).h ≤ i ∨
       3 ≤ c) →
      (overlay_watermark image wm pos).pix i j c = image.pix i j c := by
  refine ⟨rfl, rfl, rfl, ?_⟩
  intro i j c hout
  rw [overlay_watermark]
  simp only
  rw [if_neg]
  rcases hout with h | h | h | h | h <;> omega

/-- C3 witness: host corner pixel (0,0) and an alpha sample inside the
footprint are both left untouched by a stamp placed at (1,1). -/
theorem c3_frame_witness :
    (overlay_watermark ⟨2, 2, 3, fun _ _ _ => 7⟩
        ⟨1, 1, 4, fun _ _ c => if c = 3 then 128 else 100⟩ (1, 1)).pix 0 0 0 =
      (7 : ℕ) :=
  (c3_frame ⟨2, 2, 3, fun _ _ _ => 7⟩
      ⟨1, 1, 4, fun _ _ c => if c = 3 then 128 else 100⟩ (1, 1)).2.2.2 0 0 0
    (by decide)

/-- C6 (confirmed). The opacity step multiplies each pixel's existing
alpha by opacity/100 (int truncation) rather than replacing it; color
channels are unchanged; and for a pixel whose alpha was synthesized at
255 (a source with no alpha channel), opacity 50 makes the alpha
exactly 127 — which is one of 127 or 128, and not 255. -/
theorem c6_opacity (wm : CvImage) (opacity i j : ℕ) :
    (apply_opacity wm opacity).pix i j 3 = wm.pix i j 3 * opacity / 100 ∧
    (∀ c, c ≠ 3 → (apply_opacity wm opacity).pix i j c = wm.pix i j c) ∧
    (wm.pix i j 3 = 255 →
      ((apply_opacity wm 50).pix i j 3 = 127 ∨ (apply_opacity wm 50).pix i j 3 = 128) ∧
      (apply_opacity wm 50).pix i j 3 ≠ 255) := by
  refine ⟨rfl, ?_, ?_⟩
  · intro c hcne
    rw [apply_opacity]
    simp only
    rw [if_neg hcne]
  · intro h255
    have h : (apply_opacity wm 50).pix i j 3 = 127 := by
      simp [apply_opacity, h255]
    rw [h]
    exact ⟨Or.inl rfl, by norm_num⟩

/-- C6 witness: a fully opaque stamp pixel at opacity 50 ends at 127. -/
theorem c6_opacity_witness :
    (apply_opacity ⟨1, 1, 4, fun _ _ _ => 255⟩ 50).pix 0 0 3 = 127 ∨
    (apply_opacity ⟨1, 1, 4, fun _ _ _ => 255⟩ 50).pix 0 0 3 = 128 :=
  ((c6_opacity ⟨1, 1, 4, fun _ _ _ => 255⟩ 50 0 0).2.2 rfl).1

/-- C4 (amended). The builder returns a stamp exactly when the font
color string parses as hex (then any rendering failure falls back to
the minimal default-font stamp); but when the color string itself is
malformed, the fallback re-parses it and the ValueError escapes to the
caller: the call is NOT total over all inputs. -/
theorem c4_failure_policy (env : FontEnv) (text fontFamily : String)
    (fontSize : ℕ) (color : String) (opacity : ℕ) (rotation : ℚ)
    (shadow outline : Bool) (outlineColor : String) (outlineWidth : ℕ)
    (bold italic : Bool) :
    (Except.isOk (create_text_watermark env text fontFamily fontSize color opacity
        rotation shadow outline outlineColor outlineWidth bold italic) = true ↔
      (hex_to_rgba color opacity).isSome = true) ∧
    (render_text_body env text fontSize color opacity rotation shadow outline
        outlineColor outlineWidth = Except.error () →
      create_text_watermark env text fontFamily fontSize color opacity rotation
        shadow outline outlineColor outlineWidth bold italic =
        create_default_watermark env text fontSize color opacity) := by
  constructor
  · rw [create_text_watermark]
    cases hb : render_text_body env text fontSize color opacity rotation shadow
        outline outlineColor outlineWidth with
    | ok s =>
        have hsome : (hex_to_rgba color opacity).isSome = true := by
          rw [render_text_body] at hb
          simp only at hb
          split at hb
          · exact absurd hb (by simp)
          · cases hc : hex_to_rgba color opacity with
            | none => rw [hc] at hb; exact absurd hb (by simp)
            | some v => rfl
        simp [Except.isOk, Except.toBool, hsome]
    | error e =>
        rw [create_default_watermark]
        cases hc : hex_to_rgba color opacity with
        | none => simp [Except.isOk, Except.toBool]
        | some v => simp [Except.isOk, Except.toBool]
  · intro hb
    rw [create_text_watermark, hb]

/-- C4 witness: with a different malformed color the failure-fallback
equation of the amended theorem applies and evaluates. -/
theorem c4_failure_policy_witness :
    create_text_watermark demoFontEnv "hello" "Arial" 24 "#QQQQQQ" 80 0
      false false "#000000" 2 false false =
      create_default_watermark demoFontEnv "hello" 24 "#QQQQQQ" 80 :=
  (c4_failure_policy demoFontEnv "hello" "Arial" 24 "#QQQQQQ" 80 0
      false false "#000000" 2 false false).2 (by rfl)

/-- C4 counterexample: a malformed font color raises through both the
try block and the fallback — create_text_watermark itself errors, at a
concrete, fully-evaluated input. -/
theorem c4_counterexample :
    create_text_watermark demoFontEnv "Watermark" "Arial" 24 "#GGGGGG" 80 0
      false false "#000000" 2 false false = Except.error () := by
  rfl

/-- C8 (confirmed). Image Stamp Builder failure policy: a missing or
unreadable watermark file (and any processing exception, which the
except block turns into the same outcome) yields the explicit failure
value None, never a partial stamp; a readable file always yields some
stamp in mode RGBA; and when the source had no alpha channel the
conversion synthesizes alpha 255 at every pixel. -/
theorem c8_image_builder (fs : String → FileStatus) (env : PilEnv)
    (imagePath : String) (scale : ℚ) (opacity : ℕ) (rotation : ℚ) :
    (fs imagePath = FileStatus.missing →
      create_image_watermark fs env imagePath scale opacity rotation = none) ∧
    (fs imagePath = FileStatus.unreadable →
      create_image_watermark fs env imagePath scale opacity rotation = none) ∧
    (∀ img, fs imagePath = FileStatus.readable img →
      ∃ s, create_image_watermark fs env imagePath scale opacity rotation = some s ∧
        s.mode = "RGBA") ∧
    (∀ img, fs imagePath = FileStatus.readable img → img.mode ≠ "RGBA" →
      ∀ i j, (convert_rgba img).pix i j 3 = 255) := by
  have hconv : ∀ img : PilImage, (convert_rgba img).mode = "RGBA" := by
    intro img
    rw [convert_rgba]
    split
    · assumption
    · rfl
  refine ⟨?_, ?_, ?_, ?_⟩
  · intro hm
    rw [create_image_watermark, hm]
  · intro hm
    rw [create_image_watermark, hm]
  · intro img hm
    rw [create_image_watermark, hm]
    refine ⟨_, rfl, ?_⟩
    simp only [pil_rotate, pil_resize, pil_apply_opacity]
    split <;> split <;> split <;> simp [pil_rotate, pil_resize, pil_apply_opacity, hconv]
  · intro img hm hmode i j
    rw [convert_rgba, if_neg hmode]
    simp

/-- C8 witness: the readable RGB logo yields an RGBA stamp; a missing
path yields None; the synthesized alpha at a pixel is 255. -/
theorem c8_image_builder_witness :
    (∃ s, create_image_watermark demoFs demoPilEnv "logo.png" 1 50 0 = some s ∧
      s.mode = "RGBA") ∧
    create_image_watermark demoFs demoPilEnv "gone.png" 1 50 0 = none ∧
    (convert_rgba demoRgbSource).pix 0 0 3 = 255 :=
  ⟨(c8_image_builder demoFs demoPilEnv "logo.png" 1 50 0).2.2.1 demoRgbSource rfl,
   (c8_image_builder demoFs demoPilEnv "gone.png" 1 50 0).1 rfl,
   (c8_image_builder demoFs demoPilEnv "logo.png" 1 50 0).2.2.2 demoRgbSource rfl
     (by decide) 0 0⟩

/-- C9 (confirmed). Export naming contract: on a source name
stem.rest (nonempty stem, nonempty dot-free extension), rule original
keeps the stem, prefix prepends the prefix string to the stem, suffix
appends the suffix string after the stem; in each case the final
extension matches the chosen output format (replaced, never appended to
the old one); and concretely, rule prefix with prefix wm_ on photo.jpg
exported as PNG yields exactly wm_photo.png. -/
theorem c9_export_naming (stemL extR : List Char) (pre suf fmt : String)
    (hstem : stemL ≠ []) (hext : extR ≠ []) (hdot : '.' ∉ extR)
    (hfmt : fmt = "JPEG" ∨ fmt = "PNG") :
    (∃ e, make_output_name "original" pre suf ⟨stemL ++ '.' :: extR⟩ fmt =
        ⟨stemL ++ e⟩ ∧ extension_matches fmt e) ∧
    (∃ e, make_output_name "prefix" pre suf ⟨stemL ++ '.' :: extR⟩ fmt =
        ⟨(pre.data ++ stemL) ++ e⟩ ∧ extension_matches fmt e) ∧
    (∃ e, make_output_name "suffix" pre suf ⟨stemL ++ '.' :: extR⟩ fmt =
        ⟨(stemL ++ suf.data) ++ e⟩ ∧ extension_matches fmt e) ∧
    make_output_name "prefix" "wm_" "" "photo.jpg" "PNG" = "wm_photo.png" := by
  have hsplit : splitName (stemL ++ '.' :: extR) = (stemL, '.' :: extR) :=
    splitName_append stemL extR hstem hext hdot
  have hdata : (String.mk (stemL ++ '.' :: extR)).data = stemL ++ '.' :: extR := rfl
  refine ⟨?_, ?_, ?_, by decide⟩
  · obtain ⟨e, he, hm⟩ := force_extension_spec stemL extR hstem hext hdot fmt hfmt
    refine ⟨e, ?_, hm⟩
    rw [make_output_name, hdata, hsplit]
    rw [if_neg (show ¬("original" = "prefix") from by decide),
      if_neg (show ¬("original" = "suffix") from by decide)]
    show (⟨force_extension fmt (stemL ++ '.' :: extR)⟩ : String) = _
    rw [he]
  · have hb : pre.data ++ stemL ≠ [] := by
      intro hnil
      rw [List.append_eq_nil] at hnil
      exact hstem hnil.2
    obtain ⟨e, he, hm⟩ :=
      force_extension_spec (pre.data ++ stemL) extR hb hext hdot fmt hfmt
    refine ⟨e, ?_, hm⟩
    rw [make_output_name, hdata, hsplit]
    rw [if_pos (show "prefix" = "prefix" from rfl)]
    show (⟨force_extension fmt ((pre.data ++ stemL) ++ '.' :: extR)⟩ : String) = _
    rw [he]
  · have hb : stemL ++ suf.data ≠ [] := by
      intro hnil
      rw [List.append_eq_nil] at hnil
      exact hstem hnil.1
    obtain ⟨e, he, hm⟩ :=
      force_extension_spec (stemL ++ suf.data) extR hb hext hdot fmt hfmt
    refine ⟨e, ?_, hm⟩
    rw [make_output_name, hdata, hsplit]
    rw [if_neg (show ¬("suffix" = "prefix") from by decide),
      if_pos (show "suffix" = "suffix" from rfl)]
    show (⟨force_extension fmt ((stemL ++ suf.data) ++ '.' :: extR)⟩ : String) = _
    rw [he]

/-- C9 witness: source photo.jpg, rule prefix with wm_, PNG output. -/
theorem c9_export_naming_witness :
    (∃ e, make_output_name "prefix" "wm_" "" ⟨"photo".data ++ '.' :: "jpg".data⟩ "PNG" =
        ⟨("wm_".data ++ "photo".data) ++ e⟩ ∧ extension_matches "PNG" e) ∧
    make_output_name "prefix" "wm_" "" "photo.jpg" "PNG" = "wm_photo.png" :=
  ⟨(c9_export_naming "photo".data "jpg".data "wm_" "" "PNG" (by decide) (by decide)
      (by decide) (Or.inr rfl)).2.1,
   (c9_export_naming "photo".data "jpg".data "wm_" "" "PNG" (by decide) (by decide)
      (by decide) (Or.inr rfl)).2.2.2⟩

/-- C5 (confirmed). Batch export aggregation: each image contributes to
exactly one counter, so success + failed equals the number of images, a
single failure never aborts the remaining images (the result of the
whole fold still counts every later image), and failed_files is exactly
the list of filenames of the failing images, in order; the concrete
3-image scenario with one bad source yields success 2, failure 1 and
just that filename. -/
theorem c5_batch_aggregation (images : List ImgEntry) (save : ImgEntry → Bool) :
    (batch_export images save).success_count +
      (batch_export images save).failed_count = images.length ∧
    (batch_export images save).failed_files =
      (images.filter (fun e => !(save e))).map ImgEntry.filename ∧
    batch_export
        [⟨"a.jpg", "a.jpg"⟩, ⟨"broken.jpg", "broken.jpg"⟩, ⟨"c.jpg", "c.jpg"⟩]
        (fun e => !(e.filename = "broken.jpg")) =
      ⟨2, 1, ["broken.jpg"]⟩ := by
  refine ⟨?_, ?_, by decide⟩
  · rw [batch_export, batch_export_foldl_success, batch_export_foldl_failed]
    simp only [Nat.zero_add]
    have := images.length_eq_length_filter_add (fun e => save e)
    omega
  · rw [batch_export, batch_export_foldl_files]
    simp

/-- C10 (confirmed). create_thumbnail evaluates PIL's in-place
thumbnail on a discarded copy and returns its return value, which is
always None; consequently every entry add_image appends carries
thumbnail = None instead of a thumbnail image. -/
theorem c10_thumbnail_none (image : PilImage) (size : ℕ × ℕ)
    (loader : String → Option PilImage) (filePath : String) (entry : ImageInfo)
    (hadd : add_image loader filePath = some entry) :
    create_thumbnail image size = none ∧ entry.thumbnail = none := by
  refine ⟨rfl, ?_⟩
  rw [add_image] at hadd
  split at hadd
  · exact absurd hadd (by simp)
  · split at hadd
    · exact absurd hadd (by simp)
    · cases hadd
      rfl

/-- C10 witness: a concrete successful add_image call stores
thumbnail = none. -/
theorem c10_thumbnail_none_witness :
    create_thumbnail demoRgbSource (150, 150) = none ∧
    demoEntry.thumbnail = none :=
  c10_thumbnail_none demoRgbSource (150, 150) demoLoader "a.png" demoEntry (by rfl)

end Watermark
